import Mathlib

/-!
Shallow embedding of `src/core/ocr.ts` (`findTextBounds`) of mobile-pixel-mcp.

The source function preprocesses an image (sharp: grayscale + threshold 128),
writes a debug copy of the preprocessed buffer to `debug_ocr_processed.png`,
runs one Tesseract recognition pass, and scans the recognizer output
hierarchy blocks → paragraphs → lines → words, returning the bounding box of
the first word whose cleaned lower-cased text contains the lower-cased
search phrase, or `null` when no word matches.

Strings are modelled at the character-list level: JavaScript
`String.prototype.toLowerCase` is per-character lower-casing (the inputs of
interest are ASCII, where `Char.toLower` agrees with JavaScript),
`String.prototype.includes` is contiguous-sublist containment, and
`.replace(/[.,!?;:]/g, '')` is a filter dropping those six characters.
Recognizer bounding boxes are integers.  Absent levels of the Tesseract
hierarchy (`data.blocks || []`, `if (!block.paragraphs) continue`, …) are
modelled as `Option`-valued fields.
-/

namespace OcrTs

/-- A recognizer bounding box in the coordinate space of the image the
recognizer was given (`word.bbox` in `ocr.ts`). -/
structure BBox where
  x0 : Int
  y0 : Int
  x1 : Int
  y1 : Int
deriving DecidableEq, Repr

/-- The value returned by `findTextBounds` on success
(`{ x, y, width, height }`, `ocr.ts` line 64). -/
structure Box where
  x : Int
  y : Int
  width : Int
  height : Int
deriving DecidableEq, Repr

/-- A recognized word: `word.text` and `word.bbox` (the only fields of a word
the source reads). -/
structure Word where
  text : String
  bbox : BBox
deriving DecidableEq, Repr

/-- A recognized line.  The source reads only `line.words`
(`if (!line.words) continue`); `text` is carried by the recognizer output but
never read by `findTextBounds`. -/
structure Line where
  text : String
  words : Option (List Word)
deriving DecidableEq, Repr

/-- A recognized paragraph: `paragraph.lines`, absent when the recognizer
omitted the level. -/
structure Paragraph where
  lines : Option (List Line)
deriving DecidableEq, Repr

/-- A recognized block: `block.paragraphs`, absent when the recognizer
omitted the level. -/
structure Block where
  paragraphs : Option (List Paragraph)
deriving DecidableEq, Repr

/-- The recognizer result `result.data`: the source reads `data.blocks || []`,
so `blocks` may be absent. -/
structure TessData where
  blocks : Option (List Block)
deriving DecidableEq, Repr

/-- JavaScript `s.toLowerCase()` on the ASCII fragment: lower-case every
character. -/
def jsToLower (s : String) : List Char :=
  s.data.map Char.toLower

/-- The six characters removed by `.replace(/[.,!?;:]/g, '')`
(`ocr.ts` line 57). -/
def punctChars : List Char := ['.', ',', '!', '?', ';', ':']

/-- JavaScript `.replace(/[.,!?;:]/g, '')`: drop every occurrence of the six
punctuation characters. -/
def cleanPunctuation (cs : List Char) : List Char :=
  cs.filter (fun c => decide (c ∉ punctChars))

/-- Test that `pat` is a literal prefix of `hay` (helper for `jsIncludes`). -/
def listStartsWith : List Char → List Char → Bool
  | [], _ => true
  | _ :: _, [] => false
  | a :: as, b :: bs => a == b && listStartsWith as bs

/-- JavaScript `hay.includes(pat)`: `pat` occurs contiguously in `hay`. -/
def jsIncludes (hay pat : List Char) : Bool :=
  match hay with
  | [] => pat.isEmpty
  | _ :: rest => listStartsWith pat hay || jsIncludes rest pat

/-- Line 64 of `ocr.ts`:
`return { x: x0, y: y0, width: x1 - x0, height: y1 - y0 }`.
The source applies no scaling or offset to the recognizer coordinates. -/
def remapBox (b : BBox) : Box :=
  { x := b.x0, y := b.y0, width := b.x1 - b.x0, height := b.y1 - b.y0 }

/-- Lines 57–61 of `ocr.ts`: clean the word text
(`word.text.toLowerCase().replace(/[.,!?;:]/g, '')`) and test
`lowerWord.includes(lowerSearchText)`. -/
def wordMatches (lowerSearchText : List Char) (w : Word) : Bool :=
  jsIncludes (cleanPunctuation (jsToLower w.text)) lowerSearchText

/-- The `for (const word of line.words)` loop: return the remapped bbox of the
first matching word. -/
def searchWords (lowerSearchText : List Char) : List Word → Option Box
  | [] => none
  | w :: ws =>
    if wordMatches lowerSearchText w then some (remapBox w.bbox)
    else searchWords lowerSearchText ws

/-- The `for (const line of paragraph.lines)` loop with
`if (!line.words) continue`. -/
def searchLines (lowerSearchText : List Char) : List Line → Option Box
  | [] => none
  | l :: ls =>
    match l.words with
    | none => searchLines lowerSearchText ls
    | some ws =>
      match searchWords lowerSearchText ws with
      | some b => some b
      | none => searchLines lowerSearchText ls

/-- The `for (const paragraph of block.paragraphs)` loop with
`if (!paragraph.lines) continue`. -/
def searchParagraphs (lowerSearchText : List Char) : List Paragraph → Option Box
  | [] => none
  | p :: ps =>
    match p.lines with
    | none => searchParagraphs lowerSearchText ps
    | some ls =>
      match searchLines lowerSearchText ls with
      | some b => some b
      | none => searchParagraphs lowerSearchText ps

/-- The `for (const block of blocks)` loop with
`if (!block.paragraphs) continue`. -/
def searchBlocks (lowerSearchText : List Char) : List Block → Option Box
  | [] => none
  | b :: bs =>
    match b.paragraphs with
    | none => searchBlocks lowerSearchText bs
    | some ps =>
      match searchParagraphs lowerSearchText ps with
      | some box => some box
      | none => searchBlocks lowerSearchText bs

/-- The search phase of `findTextBounds` (`ocr.ts` lines 40–71): lower-case
the search phrase once, default an absent `blocks` field to `[]`, scan the
hierarchy, and return the first match or `null` (`none`). -/
def searchData (data : TessData) (searchText : String) : Option Box :=
  searchBlocks (jsToLower searchText) (data.blocks.getD [])

/-- Preprocessing steps applied by the source to the input image
(`sharp(imageBuffer).grayscale().threshold(128)`, `ocr.ts` lines 17–19);
`negate`, `extract` and `resize` are the further sharp primitives the spec's
variant list composes. -/
inductive Transform
  | grayscale
  | threshold (cutoff : Nat)
  | negate
  | extract (left top width height : Nat)
  | resize (width : Nat)
deriving DecidableEq, Repr

/-- A preprocessing variant: transform pipeline plus the affine data
(`scale`, `offsetY`) relating variant pixel space to original pixel space. -/
structure Variant where
  name : String
  transform : List Transform
  scale : ℚ
  offsetY : Nat
deriving DecidableEq, Repr

/-- The preprocessing passes `findTextBounds` actually performs: exactly one,
grayscale + threshold 128 on the full image (`ocr.ts` lines 17–24), followed
by a single recognition call (line 37).  The full image is neither cropped
nor resized, so its scale is 1 and its vertical offset 0; the name is that of
the spec's corresponding first variant. -/
def codeVariants : List Variant :=
  [{ name := "threshold", transform := [.grayscale, .threshold 128],
     scale := 1, offsetY := 0 }]

/-- Modelled from the spec: the four-variant list of §4.1 (absent from
`src/core/ocr.ts`, which performs a single pass) — threshold,
inverted_threshold, inverted_bottom_crop (top = floor(height·0.6), resized to
width 2000, scale = 2000/width, offsetY = top), inverted_top_crop (top 40%,
resized to width 2000, scale = 2000/width, offsetY = 0). -/
def spec_variants (width height : Nat) : List Variant :=
  let top := 3 * height / 5
  [ { name := "threshold", transform := [.grayscale, .threshold 128],
      scale := 1, offsetY := 0 },
    { name := "inverted_threshold",
      transform := [.grayscale, .negate, .threshold 128],
      scale := 1, offsetY := 0 },
    { name := "inverted_bottom_crop",
      transform := [.extract 0 top width (height - top), .resize 2000,
        .grayscale, .negate],
      scale := (2000 : ℚ) / (width : ℚ), offsetY := top },
    { name := "inverted_top_crop",
      transform := [.extract 0 0 width (2 * height / 5), .resize 2000,
        .grayscale, .negate],
      scale := (2000 : ℚ) / (width : ℚ), offsetY := 0 } ]

/-- The error type of a failed recognition (`worker.recognize` rejecting);
the message string is opaque to the source. -/
abbrev Err := String

/-- The observable outcome of one `findTextBounds` call: its return value (or
propagated recognition error) together with the files the call writes. -/
structure CallEffects where
  result : Except Err (Option Box)
  filesWritten : List String
deriving Repr

/-- The function `findTextBounds` (`ocr.ts` lines 11–76).  The recognizer
collaborator is a parameter taking the preprocessed image (represented by its
transform pipeline) to a recognition result or failure.  The call unconditionally
writes `debug_ocr_processed.png` (lines 26–28) before recognizing; a
recognition failure propagates to the caller (the `finally` block only
terminates the worker and does not catch), and on success the search phase
runs and its result is returned. -/
def findTextBounds (recognize : List Transform → Except Err TessData)
    (searchText : String) : CallEffects :=
  { filesWritten := ["debug_ocr_processed.png"],
    result :=
      match recognize [.grayscale, .threshold 128] with
      | .error e => .error e
      | .ok data => .ok (searchData data searchText) }

/-- Modelled from the spec: the §4.4 normalization step absent from
`src/core/ocr.ts` — collapse internal whitespace runs to single spaces
(applied after lower-casing). -/
def spec_collapseWhitespace : List Char → List Char
  | [] => []
  | [c] => [c]
  | a :: b :: rest =>
    if a == ' ' && b == ' ' then spec_collapseWhitespace (b :: rest)
    else a :: spec_collapseWhitespace (b :: rest)

/-- Modelled from the spec: the §4.4 line-granularity matcher absent from
`src/core/ocr.ts` — a line matches iff its normalized text contains the
normalized search phrase as a substring. -/
def spec_lineMatches (lineText phrase : String) : Bool :=
  jsIncludes (spec_collapseWhitespace (jsToLower lineText))
    (spec_collapseWhitespace (jsToLower phrase))

/-- First element of a word list (mirrors the word loop when every word
matches). -/
def firstWordWords : List Word → Option Word
  | [] => none
  | w :: _ => some w

/-- First word reachable in a line list, skipping lines without a `words`
field, following the traversal order of the line loop. -/
def firstWordLines : List Line → Option Word
  | [] => none
  | l :: ls =>
    match l.words with
    | none => firstWordLines ls
    | some ws =>
      match firstWordWords ws with
      | some w => some w
      | none => firstWordLines ls

/-- First word reachable in a paragraph list, following the traversal order
of the paragraph loop. -/
def firstWordParagraphs : List Paragraph → Option Word
  | [] => none
  | p :: ps =>
    match p.lines with
    | none => firstWordParagraphs ps
    | some ls =>
      match firstWordLines ls with
      | some w => some w
      | none => firstWordParagraphs ps

/-- First word reachable in a block list, following the traversal order of
the block loop. -/
def firstWordBlocks : List Block → Option Word
  | [] => none
  | b :: bs =>
    match b.paragraphs with
    | none => firstWordBlocks bs
    | some ps =>
      match firstWordParagraphs ps with
      | some w => some w
      | none => firstWordBlocks bs

/-- First word reachable through the block → paragraph → line → word
hierarchy of a recognizer result, in the source's iteration order. -/
def firstWord (data : TessData) : Option Word :=
  firstWordBlocks (data.blocks.getD [])

/-- A word is reachable in the recognizer output through the
block → paragraph → line → word hierarchy (each absent level contributing
nothing, as in the source's loops). -/
def wordInData (w : Word) (data : TessData) : Prop :=
  ∃ b ∈ data.blocks.getD [], ∃ p ∈ b.paragraphs.getD [],
    ∃ l ∈ p.lines.getD [], w ∈ l.words.getD []

/-- Recognizer output whose single line was recognized as "Home   Buyer" and
split into the words "Home" and "Buyer". -/
def dataC2 : TessData :=
  ⟨some [⟨some [⟨some [⟨"Home   Buyer",
    some [⟨"Home", ⟨0, 0, 40, 10⟩⟩, ⟨"Buyer", ⟨50, 0, 100, 10⟩⟩]⟩]⟩]⟩]⟩

/-- Recognizer output of the repository's own mocked unit test
(`ocr.test.ts`): one line with text "Hello World" and bbox but no `words`
field. -/
def dataMockTest : TessData :=
  ⟨some [⟨some [⟨some [⟨"Hello World", none⟩]⟩]⟩]⟩

/-- Recognizer output with two matching words of equal length at different
vertical positions: y0 = 10 (first in iteration order) and y0 = 100. -/
def dataC3 : TessData :=
  ⟨some [⟨some [⟨some [⟨"General", some [⟨"General", ⟨10, 10, 50, 30⟩⟩]⟩,
    ⟨"General", some [⟨"General", ⟨10, 100, 50, 120⟩⟩]⟩]⟩]⟩]⟩

/-- Recognizer output with a single word "General," at bbox (10, 20, 40, 30). -/
def dataC8 : TessData :=
  ⟨some [⟨some [⟨some [⟨"General,",
    some [⟨"General,", ⟨10, 20, 40, 30⟩⟩]⟩]⟩]⟩]⟩

/-- Recognizer output with a single word "Hello" at bbox (1, 2, 3, 4). -/
def dataC9 : TessData :=
  ⟨some [⟨some [⟨some [⟨"Hello", some [⟨"Hello", ⟨1, 2, 3, 4⟩⟩]⟩]⟩]⟩]⟩

/-- A prefix shares all its characters with the list it prefixes. -/
theorem listStartsWith_mem {pat hay : List Char}
    (h : listStartsWith pat hay = true) : ∀ a ∈ pat, a ∈ hay := by
  induction pat generalizing hay with
  | nil => intro a ha; exact absurd ha (List.not_mem_nil a)
  | cons p ps ih =>
    cases hay with
    | nil => simp [listStartsWith] at h
    | cons b bs =>
      simp only [listStartsWith, Bool.and_eq_true, beq_iff_eq] at h
      intro a ha
      rcases List.mem_cons.mp ha with rfl | ha'
      · exact h.1 ▸ List.mem_cons_self _ _
      · exact List.mem_cons_of_mem _ (ih h.2 a ha')

/-- A contained pattern shares all its characters with the containing list. -/
theorem jsIncludes_mem {hay pat : List Char} (h : jsIncludes hay pat = true) :
    ∀ a ∈ pat, a ∈ hay := by
  induction hay with
  | nil =>
    cases pat with
    | nil => intro a ha; exact absurd ha (List.not_mem_nil a)
    | cons x xs => simp [jsIncludes, List.isEmpty] at h
  | cons b bs ih =>
    simp only [jsIncludes, Bool.or_eq_true] at h
    rcases h with h | h
    · exact listStartsWith_mem h
    · intro a ha; exact List.mem_cons_of_mem _ (ih h a ha)

/-- The empty pattern is contained in every list (JavaScript
`s.includes('')` is always true). -/
theorem jsIncludes_nil (hay : List Char) : jsIncludes hay [] = true := by
  cases hay <;> rfl

/-- Every word matches the empty search phrase. -/
theorem wordMatches_nil (w : Word) : wordMatches [] w = true :=
  jsIncludes_nil _

/-- A successful word-loop scan returns the identity-remapped bbox of a
matching word of the list. -/
theorem searchWords_some {lst : List Char} {ws : List Word} {box : Box}
    (h : searchWords lst ws = some box) :
    ∃ w ∈ ws, wordMatches lst w = true ∧ box = remapBox w.bbox := by
  induction ws with
  | nil => simp [searchWords] at h
  | cons w ws ih =>
    simp only [searchWords] at h
    split at h
    · exact ⟨w, List.mem_cons_self _ _, by assumption, (Option.some.inj h).symm⟩
    · obtain ⟨w', hw', hm, hb⟩ := ih h
      exact ⟨w', List.mem_cons_of_mem _ hw', hm, hb⟩

/-- A successful line-loop scan returns the identity-remapped bbox of a
matching word of one of the lines. -/
theorem searchLines_some {lst : List Char} {ls : List Line} {box : Box}
    (h : searchLines lst ls = some box) :
    ∃ l ∈ ls, ∃ w ∈ l.words.getD [], wordMatches lst w = true ∧
      box = remapBox w.bbox := by
  induction ls with
  | nil => simp [searchLines] at h
  | cons l ls ih =>
    simp only [searchLines] at h
    split at h
    · obtain ⟨l', hl', rest⟩ := ih h
      exact ⟨l', List.mem_cons_of_mem _ hl', rest⟩
    · rename_i ws hws
      split at h
      · rename_i b hb
        obtain ⟨w, hwmem, hm, hbox⟩ := searchWords_some hb
        refine ⟨l, List.mem_cons_self _ _, w, ?_, hm, ?_⟩
        · rw [hws]; exact hwmem
        · rw [← Option.some.inj h]; exact hbox
      · obtain ⟨l', hl', rest⟩ := ih h
        exact ⟨l', List.mem_cons_of_mem _ hl', rest⟩

/-- A successful paragraph-loop scan returns the identity-remapped bbox of a
matching reachable word. -/
theorem searchParagraphs_some {lst : List Char} {ps : List Paragraph}
    {box : Box} (h : searchParagraphs lst ps = some box) :
    ∃ p ∈ ps, ∃ l ∈ p.lines.getD [], ∃ w ∈ l.words.getD [],
      wordMatches lst w = true ∧ box = remapBox w.bbox := by
  induction ps with
  | nil => simp [searchParagraphs] at h
  | cons p ps ih =>
    simp only [searchParagraphs] at h
    split at h
    · obtain ⟨p', hp', rest⟩ := ih h
      exact ⟨p', List.mem_cons_of_mem _ hp', rest⟩
    · rename_i ls hls
      split at h
      · rename_i b hb
        obtain ⟨l, hl, w, hw, hm, hbox⟩ := searchLines_some hb
        refine ⟨p, List.mem_cons_self _ _, l, ?_, w, hw, hm, ?_⟩
        · rw [hls]; exact hl
        · rw [← Option.some.inj h]; exact hbox
      · obtain ⟨p', hp', rest⟩ := ih h
        exact ⟨p', List.mem_cons_of_mem _ hp', rest⟩

/-- A successful block-loop scan returns the identity-remapped bbox of a
matching reachable word. -/
theorem searchBlocks_some {lst : List Char} {bs : List Block} {box : Box}
    (h : searchBlocks lst bs = some box) :
    ∃ b ∈ bs, ∃ p ∈ b.paragraphs.getD [], ∃ l ∈ p.lines.getD [],
      ∃ w ∈ l.words.getD [], wordMatches lst w = true ∧
        box = remapBox w.bbox := by
  induction bs with
  | nil => simp [searchBlocks] at h
  | cons b bs ih =>
    simp only [searchBlocks] at h
    split at h
    · obtain ⟨b', hb', rest⟩ := ih h
      exact ⟨b', List.mem_cons_of_mem _ hb', rest⟩
    · rename_i ps hps
      split at h
      · rename_i bx hbx
        obtain ⟨p, hp, l, hl, w, hw, hm, hbox⟩ := searchParagraphs_some hbx
        refine ⟨b, List.mem_cons_self _ _, p, ?_, l, hl, w, hw, hm, ?_⟩
        · rw [hps]; exact hp
        · rw [← Option.some.inj h]; exact hbox
      · obtain ⟨b', hb', rest⟩ := ih h
        exact ⟨b', List.mem_cons_of_mem _ hb', rest⟩

/-- With the empty search phrase the word loop returns the first word's
remapped bbox. -/
theorem searchWords_empty (ws : List Word) :
    searchWords [] ws = (firstWordWords ws).map (fun w => remapBox w.bbox) := by
  cases ws with
  | nil => rfl
  | cons w ws => simp [searchWords, firstWordWords, wordMatches_nil]

/-- With the empty search phrase the line loop returns the first reachable
word's remapped bbox. -/
theorem searchLines_empty (ls : List Line) :
    searchLines [] ls = (firstWordLines ls).map (fun w => remapBox w.bbox) := by
  induction ls with
  | nil => rfl
  | cons l ls ih =>
    cases hw : l.words with
    | none => simp [searchLines, firstWordLines, hw, ih]
    | some ws =>
      cases ws with
      | nil => simp [searchLines, firstWordLines, hw, searchWords,
          firstWordWords, ih]
      | cons w ws' =>
        simp [searchLines, firstWordLines, hw, searchWords, firstWordWords,
          wordMatches_nil]

/-- With the empty search phrase the paragraph loop returns the first
reachable word's remapped bbox. -/
theorem searchParagraphs_empty (ps : List Paragraph) :
    searchParagraphs [] ps =
      (firstWordParagraphs ps).map (fun w => remapBox w.bbox) := by
  induction ps with
  | nil => rfl
  | cons p ps ih =>
    cases hl : p.lines with
    | none => simp [searchParagraphs, firstWordParagraphs, hl, ih]
    | some ls =>
      cases hfw : firstWordLines ls with
      | none =>
        have := searchLines_empty ls
        rw [hfw] at this
        simp [searchParagraphs, firstWordParagraphs, hl, hfw, this, ih]
      | some w =>
        have := searchLines_empty ls
        rw [hfw] at this
        simp [searchParagraphs, firstWordParagraphs, hl, hfw, this]

/-- With the empty search phrase the block loop returns the first reachable
word's remapped bbox. -/
theorem searchBlocks_empty (bs : List Block) :
    searchBlocks [] bs = (firstWordBlocks bs).map (fun w => remapBox w.bbox) := by
  induction bs with
  | nil => rfl
  | cons b bs ih =>
    cases hp : b.paragraphs with
    | none => simp [searchBlocks, firstWordBlocks, hp, ih]
    | some ps =>
      cases hfw : firstWordParagraphs ps with
      | none =>
        have := searchParagraphs_empty ps
        rw [hfw] at this
        simp [searchBlocks, firstWordBlocks, hp, hfw, this, ih]
      | some w =>
        have := searchParagraphs_empty ps
        rw [hfw] at this
        simp [searchBlocks, firstWordBlocks, hp, hfw, this]

/-- With the empty search phrase the whole search returns the first
reachable word's remapped bbox. -/
theorem searchData_empty (data : TessData) :
    searchData data "" = (firstWord data).map (fun w => remapBox w.bbox) := by
  unfold searchData firstWord
  exact searchBlocks_empty _

/-- C1: the claim says a locate-text invocation generates exactly four
preprocessing variants (threshold, inverted_threshold, inverted_bottom_crop,
inverted_top_crop) and runs recognition once per variant.  The source
performs exactly one preprocessing pass (grayscale + threshold 128, full
image, scale 1, offset 0) and a single recognition: its variant list has
length 1, not 4, and differs from the spec's list. -/
theorem c1_code_runs_single_variant :
    codeVariants.length = 1 ∧ (spec_variants 1000 2000).length = 4 ∧
      codeVariants ≠ spec_variants 1000 2000 :=
  ⟨rfl, rfl, fun h => absurd (congrArg List.length h) (by decide)⟩

/-- C2: the claim says matching is decided at line granularity with
whitespace-collapsing normalization, so "home buyer" matches a line
recognized as "Home   Buyer".  The spec-modelled line matcher does match
that pair, but the source matches individual words only: on a line split
into the words "Home" and "Buyer" the search returns `none`, and on the
repository's own unit-test mock (a line carrying text but no `words` field)
the search for "world" in "Hello World" also returns `none`. -/
theorem c2_word_granularity_misses_phrase :
    spec_lineMatches "Home   Buyer" "home buyer" = true ∧
      searchData dataC2 "home buyer" = none ∧
      spec_lineMatches "Hello World" "world" = true ∧
      searchData dataMockTest "world" = none :=
  ⟨by decide, by decide, by decide, by decide⟩

/-- C3: the claim says the result is the candidate with minimal lengthDelta,
ties broken by larger original-space y.  The source performs no sorting: on
two equal-length matches at y = 10 and y = 100 it returns the first one in
hierarchy order (y = 10), not the bottom-most one (y = 100) the claim
selects. -/
theorem c3_first_match_wins_no_sorting :
    searchData dataC3 "general" = some ⟨10, 10, 40, 20⟩ ∧
      searchData dataC3 "general" ≠ some ⟨10, 100, 40, 20⟩ :=
  ⟨by decide, by decide⟩

/-- C4: the claim says a recognizer failure on one variant contributes zero
candidates and the call goes on with the remaining variants.  The source
runs a single recognition inside `try…finally` with no `catch`: a recognizer
failure propagates and aborts the whole call. -/
theorem c4_recognition_failure_aborts_call :
    (findTextBounds (fun _ => .error "engine crash") "General").result =
      .error "engine crash" :=
  rfl

/-- C5: "not found" and total recognition failure are distinguishable — a
recognizer failure propagates as an error, well-formed output yields
`.ok` of the search result, in particular `.ok none` on empty output, and
the error outcome differs from the "not found" outcome. -/
theorem c5_not_found_distinct_from_failure (e : Err) (data : TessData)
    (s : String) :
    (findTextBounds (fun _ => .error e) s).result = .error e ∧
      (findTextBounds (fun _ => .ok data) s).result =
        .ok (searchData data s) ∧
      (findTextBounds (fun _ => .ok ⟨some []⟩) s).result = .ok none ∧
      (Except.error e : Except Err (Option Box)) ≠ .ok none :=
  ⟨rfl, rfl, rfl, fun h => Except.noConfusion h⟩

/-- C6: the claim says a locate-text call writes nothing outside its own
return value — no files.  The source unconditionally writes the preprocessed
buffer to `debug_ocr_processed.png` (`ocr.ts` lines 26–28) on every call. -/
theorem c6_call_writes_debug_file
    (recognize : List Transform → Except Err TessData) (s : String) :
    (findTextBounds recognize s).filesWritten = ["debug_ocr_processed.png"] ∧
      (findTextBounds recognize s).filesWritten ≠ [] :=
  ⟨rfl, fun h => List.noConfusion h⟩

/-- C7: a missing hierarchy level (absent `blocks`, a block without
`paragraphs`, a paragraph without `lines`, a line without `words`) is
treated as empty and skipped — the scan of such an element equals the scan
of the remaining elements, and the call still returns `.ok` rather than an
error. -/
theorem c7_missing_levels_skipped (s t : String) (bs : List Block)
    (ps : List Paragraph) (ls : List Line) (lst : List Char) :
    searchData ⟨none⟩ s = none ∧
      searchData ⟨some (⟨none⟩ :: bs)⟩ s = searchData ⟨some bs⟩ s ∧
      searchParagraphs lst (⟨none⟩ :: ps) = searchParagraphs lst ps ∧
      searchLines lst (⟨t, none⟩ :: ls) = searchLines lst ls ∧
      (findTextBounds (fun _ => .ok ⟨some (⟨none⟩ :: bs)⟩) s).result =
        .ok (searchData ⟨some bs⟩ s) :=
  ⟨rfl, rfl, rfl, rfl, rfl⟩

/-- C8: the source's only variant is the full-image threshold pass
(scale 1, offset 0), and every successful search returns a matched word's
recognizer box remapped by the identity: x = x0, y = y0, width = x1 − x0,
height = y1 − y0, exactly. -/
theorem c8_identity_remap (data : TessData) (s : String) (box : Box)
    (h : searchData data s = some box) :
    ∃ w : Word, wordInData w data ∧ wordMatches (jsToLower s) w = true ∧
      box = { x := w.bbox.x0, y := w.bbox.y0,
              width := w.bbox.x1 - w.bbox.x0,
              height := w.bbox.y1 - w.bbox.y0 } := by
  unfold searchData at h
  obtain ⟨b, hb, p, hp, l, hl, w, hw, hm, hbox⟩ := searchBlocks_some h
  exact ⟨w, ⟨b, hb, p, hp, l, hl, hw⟩, hm, hbox⟩

/-- Witness for C8 at a concrete input: searching "general" in `dataC8`
returns `some ⟨10, 20, 30, 10⟩`, which is the identity remap of the matched
word's box (10, 20, 40, 30). -/
theorem c8_identity_remap_witness :
    ∃ w : Word, wordInData w dataC8 ∧
      wordMatches (jsToLower "general") w = true ∧
      (⟨10, 20, 30, 10⟩ : Box) =
        { x := w.bbox.x0, y := w.bbox.y0,
          width := w.bbox.x1 - w.bbox.x0,
          height := w.bbox.y1 - w.bbox.y0 } :=
  c8_identity_remap dataC8 "general" ⟨10, 20, 30, 10⟩ (by decide)

/-- C9: with an empty search phrase every cleaned word text contains the
empty string, so the call returns the first reachable word's bounding box
rather than "not found". -/
theorem c9_empty_phrase_matches_first_word (data : TessData) (w : Word)
    (h : firstWord data = some w) :
    (findTextBounds (fun _ => .ok data) "").result =
      .ok (some (remapBox w.bbox)) := by
  show Except.ok (searchData data "") = _
  rw [searchData_empty, h]
  rfl

/-- Witness for C9 at a concrete input: on `dataC9` (first reachable word
"Hello" at (1, 2, 3, 4)) the call with empty phrase returns that word's
box. -/
theorem c9_empty_phrase_witness :
    (findTextBounds (fun _ => .ok dataC9) "").result =
      .ok (some (remapBox ⟨1, 2, 3, 4⟩)) :=
  c9_empty_phrase_matches_first_word dataC9 ⟨"Hello", ⟨1, 2, 3, 4⟩⟩ (by decide)

/-- C10: the word text is lower-cased and stripped of the characters
. , ! ? ; : before the containment test while the search phrase keeps its
punctuation, so the word "General," matches the phrase "general", and a
phrase containing any of those characters never matches any word. -/
theorem c10_punctuation_stripped_from_word_only (w : Word) (s : String)
    (c : Char) :
    wordMatches (jsToLower "general") ⟨"General,", ⟨0, 0, 0, 0⟩⟩ = true ∧
      (c ∈ punctChars → c ∈ s.data → wordMatches (jsToLower s) w = false) := by
  refine ⟨by decide, fun hc hs => ?_⟩
  cases hb : wordMatches (jsToLower s) w with
  | false => rfl
  | true =>
    exfalso
    have hlc : Char.toLower c = c := by fin_cases hc <;> decide
    have hcl : c ∈ jsToLower s := by
      unfold jsToLower
      rw [← hlc]
      exact List.mem_map_of_mem _ hs
    have hmem : c ∈ cleanPunctuation (jsToLower w.text) :=
      jsIncludes_mem hb c hcl
    have hnp : c ∉ punctChars :=
      of_decide_eq_true (List.mem_filter.mp hmem).2
    exact hnp hc

/-- Witness for C10 at concrete inputs: "General," matches "general", and
the phrase "gen.eral" (which contains '.') matches no word, in particular
not "General,". -/
theorem c10_punctuation_witness :
    wordMatches (jsToLower "general") ⟨"General,", ⟨0, 0, 0, 0⟩⟩ = true ∧
      wordMatches (jsToLower "gen.eral") ⟨"General,", ⟨0, 0, 0, 0⟩⟩ = false :=
  ⟨(c10_punctuation_stripped_from_word_only ⟨"General,", ⟨0, 0, 0, 0⟩⟩
      "gen.eral" '.').1,
   (c10_punctuation_stripped_from_word_only ⟨"General,", ⟨0, 0, 0, 0⟩⟩
      "gen.eral" '.').2 (by decide) (by decide)⟩

end OcrTs
